import Mathlib

/-!
Shallow embedding of the `k` kinematic-chain core, centred on
`JointNode::set_position`, `JointNode::set_mimic_parent` and
`JointNode::parent_world_transform` from `src/joint_node.rs`.

The node graph is embedded as an arena: a list of node records indexed by
`Nat` node ids.  Strong (owning) references are ids expected to be present
in the arena; weak references (`parent`, `sub_parent`) are ids that may
dangle.  A Rust panic (a failed `RefCell` borrow or a failed
`Weak::upgrade().unwrap()`) is modelled as an explicit `panicked` outcome,
distinct from the typed `Err` results.

The scalar type parameter `T : Real` is embedded as `ℚ` so that all
definitions stay executable and decidable.
-/

namespace K

/-- A rigid transform: a rotation (as a quaternion 4-tuple) plus a
translation, mirroring `nalgebra`'s `Isometry3`. -/
structure Isometry3 where
  rotation : ℚ × ℚ × ℚ × ℚ
  translation : ℚ × ℚ × ℚ
deriving DecidableEq, Repr

def Isometry3.identity : Isometry3 :=
  { rotation := (1, 0, 0, 0), translation := (0, 0, 0) }

/-- Modelled from the spec: `JointType` lives in `joint.rs`, which is not
under `src/`; spec section 3 gives the closed variant set `Fixed`,
`Rotational(axis)`, `Linear(axis)`. -/
inductive JointType where
  | Fixed : JointType
  | Rotational (axis : ℚ × ℚ × ℚ) : JointType
  | Linear (axis : ℚ × ℚ × ℚ) : JointType
deriving DecidableEq, Repr

/-- Modelled from the spec: the inclusive limit range `[min, max]` of a
joint (spec section 3); `joint.rs` is not under `src/`. -/
structure Range where
  min : ℚ
  max : ℚ
deriving DecidableEq, Repr

/-- `true` when `v` lies inside the inclusive range. -/
def Range.is_valid (r : Range) (v : ℚ) : Bool :=
  decide (r.min ≤ v) && decide (v ≤ r.max)

/-- Modelled from the spec: the error type lives in `errors.rs`, which is
not under `src/`.  Spec section 7 lists `OutOfLimits`, `NotMovable` and the
mimic configuration error; `joint_node.rs` shows the latter carries the
driving joint's name (`from`) and the dependent joint's name (`to`). -/
inductive JointError where
  | OutOfLimits (joint_name : String) (position : ℚ) : JointError
  | NotMovable (joint_name : String) : JointError
  | Mimic (from_joint : String) (to_joint : String) : JointError
deriving DecidableEq, Repr

/-- Modelled from the spec: `Mimic<T>` (spec section 3) — `multiplier` and
`offset` scalars; `joint.rs` is not under `src/`. -/
structure Mimic where
  multiplier : ℚ
  offset : ℚ
deriving DecidableEq, Repr

/-- `mimic_position(parent_position) = parent_position * multiplier + offset`
(spec section 3). -/
def Mimic.mimic_position (m : Mimic) (parent_position : ℚ) : ℚ :=
  parent_position * m.multiplier + m.offset

/-- Modelled from the spec: `Joint<T>` (spec section 3); `joint.rs` is not
under `src/`.  `world_transform_cache` is the optional cached pose read by
`Joint::world_transform()`. -/
structure Joint where
  name : String
  joint_type : JointType
  position : Option ℚ
  limits : Option Range
  offset : Isometry3
  world_transform_cache : Option Isometry3
deriving DecidableEq, Repr

/-- Modelled from the spec: `Joint::set_position` (spec sections 4.1 and 8);
`joint.rs` is not under `src/`.  A `Fixed` joint always fails with
`NotMovable` (section 8); otherwise the position is validated against the
configured limits, failing with `OutOfLimits` when outside, and stored on
success. -/
def Joint.set_position (j : Joint) (p : ℚ) : Except JointError Joint :=
  match j.joint_type with
  | JointType.Fixed => Except.error (JointError.NotMovable j.name)
  | _ =>
    match j.limits with
    | some r =>
      if r.is_valid p then Except.ok { j with position := some p }
      else Except.error (JointError.OutOfLimits j.name p)
    | none => Except.ok { j with position := some p }

/-- `Joint::position`: the stored value, absent for fixed joints. -/
def Joint.get_position (j : Joint) : Option ℚ := j.position

/-- `Joint::world_transform`: a read of the cached pose, never a
recomputation. -/
def Joint.world_transform (j : Joint) : Option Isometry3 :=
  j.world_transform_cache

/-- One arena slot: the `Node` record of `rctree.rs` specialised to
`Node<Joint, Mimic>`.  `parent` / `sub_parent` are weak references (ids that
may dangle), `children` / `sub_children` are strong references, and
`sub_data` is the node's own `Mimic` record (read as
`child.borrow().sub_data` in `joint_node.rs`). -/
structure NodeData where
  data : Joint
  parent : Option Nat
  children : List Nat
  sub_parent : Option Nat
  sub_children : List Nat
  sub_data : Option Mimic
deriving DecidableEq, Repr

/-- The arena of nodes: node id `i` denotes `nodes[i]`. -/
structure World where
  nodes : List NodeData
deriving DecidableEq, Repr

def World.get (w : World) (id : Nat) : Option NodeData := w.nodes[id]?

def World.set (w : World) (id : Nat) (n : NodeData) : World :=
  ⟨w.nodes.set id n⟩

/-- Outcome of a state-mutating call: the Rust function returns
`Result<(), JointError>` while mutating the nodes in place, so the model
pairs the returned value with the arena after the call.  `panicked` marks a
Rust panic (`RefCell` double borrow or `Weak::upgrade().unwrap()` failure). -/
inductive Outcome where
  | panicked : Outcome
  | ok (w : World) : Outcome
  | error (e : JointError) (w : World) : Outcome
deriving DecidableEq, Repr

def Outcome.isOk : Outcome → Bool
  | Outcome.ok _ => true
  | _ => false

namespace JointNode

/-- `JointNode::position`: `self.borrow().data.position()`. -/
def position (w : World) (self : Nat) : Option ℚ :=
  (w.get self).bind fun n => n.data.position

/-- The `for child in &self.borrow().sub_children` loop of
`JointNode::set_position`.  The loop holds a shared borrow of `self`
throughout, so `child.borrow_mut()` panics when the child is `self` itself;
the `None => return Err(...)` arm only reads, hence does not panic. -/
def propagateMimic (w : World) (self : Nat) (cs : List Nat) (position : ℚ) :
    Outcome :=
  match cs with
  | [] => Outcome.ok w
  | c :: rest =>
    match w.get c with
    | none => Outcome.panicked
    | some cn =>
      match cn.sub_data with
      | none =>
        match w.get self with
        | none => Outcome.panicked
        | some sn => Outcome.error (JointError.Mimic sn.data.name cn.data.name) w
      | some m =>
        if c = self then Outcome.panicked
        else
          match cn.data.set_position (m.mimic_position position) with
          | Except.error e => Outcome.error e w
          | Except.ok j =>
            propagateMimic (w.set c { cn with data := j }) self rest position

/-- `JointNode::set_position` (`joint_node.rs` lines 113–134): skip with
`Ok` when a mimic parent is set, otherwise set the own joint's position and
propagate to each mimic child in list order. -/
def set_position (w : World) (self : Nat) (position : ℚ) : Outcome :=
  match w.get self with
  | none => Outcome.panicked
  | some n =>
    if n.sub_parent.isSome then Outcome.ok w
    else
      match n.data.set_position position with
      | Except.error e => Outcome.error e w
      | Except.ok j =>
        propagateMimic (w.set self { n with data := j }) self n.sub_children position

/-- Modelled from the spec: `Node::set_sub_parent` lives in `rctree.rs`,
which is not under `src/`; per spec section 4.2 it records `parent` as
`self`'s mimic parent and appends `self` to `parent`'s mimic-children
list. -/
def set_sub_parent (w : World) (self parent : Nat) : World :=
  let w1 :=
    match w.get self with
    | none => w
    | some n => w.set self { n with sub_parent := some parent }
  match w1.get parent with
  | none => w1
  | some p => w1.set parent { p with sub_children := p.sub_children ++ [self] }

/-- `JointNode::set_mimic_parent` (`joint_node.rs` lines 192–195):
`self.set_sub_parent(parent); self.borrow_mut().sub_data = Some(mimic);`. -/
def set_mimic_parent (w : World) (self parent : Nat) (mimic : Mimic) : World :=
  let w1 := set_sub_parent w self parent
  match w1.get self with
  | none => w1
  | some n => w1.set self { n with sub_data := some mimic }

/-- Result of `JointNode::parent_world_transform`, which returns
`Option<Isometry3>` but can also panic on `parent.upgrade().unwrap()`. -/
inductive TransformRead where
  | panicked : TransformRead
  | value (t : Option Isometry3) : TransformRead
deriving DecidableEq, Repr

/-- `JointNode::parent_world_transform` (`joint_node.rs` lines 151–160):
identity for a root, otherwise the structural parent's cached world
transform; `parent.upgrade().unwrap()` panics when the weak reference is
dangling (modelled as a missing arena entry). -/
def parent_world_transform (w : World) (self : Nat) : TransformRead :=
  match w.get self with
  | none => TransformRead.panicked
  | some n =>
    match n.parent with
    | none => TransformRead.value (some Isometry3.identity)
    | some pid =>
      match w.get pid with
      | none => TransformRead.panicked
      | some pn => TransformRead.value pn.data.world_transform

end JointNode

/-! ### Arena access lemmas -/

theorem World.get_set_self {w : World} {id : Nat} {n : NodeData} (m : NodeData)
    (h : w.get id = some n) : (w.set id m).get id = some m := by
  simp only [World.get, World.set] at *
  rw [List.getElem?_set_self', h]
  rfl

theorem World.get_set_ne {w : World} (id : Nat) {j : Nat} (m : NodeData)
    (h : id ≠ j) : (w.set id m).get j = w.get j := by
  simp only [World.get, World.set]
  exact List.getElem?_set_ne h

theorem World.get_set_isSome {w : World} {id : Nat} (j : Nat) (m : NodeData) :
    ((w.set id m).get j).isSome = ((w.get j).isSome) := by
  by_cases h : id = j
  · subst h
    simp only [World.get, World.set, List.getElem?_set_self']
    cases w.nodes[id]? <;> rfl
  · rw [World.get_set_ne id m h]

/-! ### Joint-level set_position lemmas -/

/-- The success condition of `Joint::set_position`: the joint is movable and
the value passes the limit check.  Depends only on `joint_type` and
`limits`. -/
def Joint.accepts (j : Joint) (p : ℚ) : Bool :=
  (match j.joint_type with
   | JointType.Fixed => false
   | _ => true) &&
  (match j.limits with
   | some r => r.is_valid p
   | none => true)

theorem Joint.set_position_eq_ok {j : Joint} {p : ℚ} (h : j.accepts p = true) :
    j.set_position p = Except.ok { j with position := some p } := by
  unfold Joint.accepts at h
  rw [Bool.and_eq_true] at h
  obtain ⟨h1, h2⟩ := h
  unfold Joint.set_position
  cases htp : j.joint_type with
  | Fixed => rw [htp] at h1; simp at h1
  | Rotational ax =>
    cases hl : j.limits with
    | none => simp
    | some r =>
      rw [hl] at h2
      simp only at h2
      simp [h2]
  | Linear ax =>
    cases hl : j.limits with
    | none => simp
    | some r =>
      rw [hl] at h2
      simp only at h2
      simp [h2]

theorem Joint.accepts_of_ok {j j' : Joint} {p : ℚ}
    (h : j.set_position p = Except.ok j') :
    j.accepts p = true ∧ j' = { j with position := some p } := by
  unfold Joint.set_position at h
  unfold Joint.accepts
  cases htp : j.joint_type with
  | Fixed => rw [htp] at h; simp at h
  | Rotational ax =>
    rw [htp] at h
    simp only at h ⊢
    cases hl : j.limits with
    | none =>
      rw [hl] at h
      simp only [Except.ok.injEq] at h
      exact ⟨rfl, h.symm⟩
    | some r =>
      rw [hl] at h
      simp only at h ⊢
      by_cases hv : r.is_valid p = true
      · simp only [hv, if_true, Except.ok.injEq] at h
        exact ⟨hv, h.symm⟩
      · simp only [hv, if_false] at h
        simp [hv] at h
  | Linear ax =>
    rw [htp] at h
    simp only at h ⊢
    cases hl : j.limits with
    | none =>
      rw [hl] at h
      simp only [Except.ok.injEq] at h
      exact ⟨rfl, h.symm⟩
    | some r =>
      rw [hl] at h
      simp only at h ⊢
      by_cases hv : r.is_valid p = true
      · simp only [hv, if_true, Except.ok.injEq] at h
        exact ⟨hv, h.symm⟩
      · simp only [hv, if_false] at h
        simp [hv] at h

theorem Joint.set_position_fixed {j : Joint} {p : ℚ}
    (h : j.joint_type = JointType.Fixed) :
    j.set_position p = Except.error (JointError.NotMovable j.name) := by
  unfold Joint.set_position
  rw [h]

theorem Joint.set_position_invalid {j : Joint} {p : ℚ} {r : Range}
    (hnf : j.joint_type ≠ JointType.Fixed) (hl : j.limits = some r)
    (hv : r.is_valid p = false) :
    j.set_position p = Except.error (JointError.OutOfLimits j.name p) := by
  unfold Joint.set_position
  cases htp : j.joint_type with
  | Fixed => exact absurd htp hnf
  | Rotational ax => simp [hl, hv]
  | Linear ax => simp [hl, hv]

/-! ### Behaviour of the mimic propagation loop -/

/-- The node state written for a mimic child during propagation of the
driver position `x`: only the joint's position changes. -/
def mimicWrite (cn : NodeData) (x : ℚ) (mi : Mimic) : NodeData :=
  { cn with data := { cn.data with position := some (mi.mimic_position x) } }

/-- Every node of `ds` was a valid mimic child of the driver `self` in the
pre-state `w` and carries its mimic-derived position in the post-state
`w'`. -/
def WrittenAll (w w' : World) (self : Nat) (x : ℚ) (ds : List Nat) : Prop :=
  ∀ c ∈ ds, c ≠ self ∧ ∃ cn mi, w.get c = some cn ∧ cn.sub_data = some mi ∧
    w'.get c = some (mimicWrite cn x mi)

/-- Nodes outside `ds` are untouched between `w` and `w'`. -/
def FrameOutside (w w' : World) (ds : List Nat) : Prop :=
  ∀ id, id ∉ ds → w'.get id = w.get id

theorem mimicWrite_idem (cn : NodeData) (x : ℚ) (mi : Mimic) :
    mimicWrite (mimicWrite cn x mi) x mi = mimicWrite cn x mi := rfl

theorem mimicWrite_sub_data (cn : NodeData) (x : ℚ) (mi : Mimic) :
    (mimicWrite cn x mi).sub_data = cn.sub_data := rfl

theorem step_lift {w w' : World} {self c : Nat} {x : ℚ} {cn : NodeData}
    {m : Mimic} {ds : List Nat}
    (hc : w.get c = some cn) (hs : cn.sub_data = some m) (hne : c ≠ self)
    (hW : WrittenAll (w.set c (mimicWrite cn x m)) w' self x ds)
    (hF : FrameOutside (w.set c (mimicWrite cn x m)) w' ds) :
    WrittenAll w w' self x (c :: ds) ∧ FrameOutside w w' (c :: ds) := by
  constructor
  · intro d hd
    rcases List.mem_cons.mp hd with hd | hd
    · subst hd
      refine ⟨hne, cn, m, hc, hs, ?_⟩
      by_cases hcd : d ∈ ds
      · obtain ⟨_, cn2, mi2, h1, h2, h3⟩ := hW d hcd
        rw [World.get_set_self (mimicWrite cn x m) hc] at h1
        obtain rfl : mimicWrite cn x m = cn2 := by injection h1
        rw [mimicWrite_sub_data, hs] at h2
        obtain rfl : m = mi2 := by injection h2
        rw [h3, mimicWrite_idem]
      · rw [hF d hcd, World.get_set_self (mimicWrite cn x m) hc]
    · obtain ⟨hne', cn2, mi2, h1, h2, h3⟩ := hW d hd
      by_cases hdc : d = c
      · subst hdc
        rw [World.get_set_self (mimicWrite cn x m) hc] at h1
        obtain rfl : mimicWrite cn x m = cn2 := by injection h1
        rw [mimicWrite_sub_data, hs] at h2
        obtain rfl : m = mi2 := by injection h2
        rw [mimicWrite_idem] at h3
        exact ⟨hne', cn, m, hc, hs, h3⟩
      · rw [World.get_set_ne c (mimicWrite cn x m) (fun h => hdc h.symm)] at h1
        exact ⟨hne', cn2, mi2, h1, h2, h3⟩
  · intro id hid
    have hid1 : id ≠ c := fun h => hid (h ▸ List.mem_cons_self c ds)
    have hid2 : id ∉ ds := fun h => hid (List.mem_cons_of_mem c h)
    rw [hF id hid2, World.get_set_ne c (mimicWrite cn x m) (fun h => hid1 h.symm)]

theorem propagateMimic_ok_spec {cs : List Nat} {w w' : World} {self : Nat}
    {x : ℚ} (h : JointNode.propagateMimic w self cs x = Outcome.ok w') :
    WrittenAll w w' self x cs ∧ FrameOutside w w' cs := by
  induction cs generalizing w with
  | nil =>
    simp only [JointNode.propagateMimic] at h
    obtain rfl : w = w' := by injection h
    exact ⟨fun c hc => absurd hc (List.not_mem_nil c), fun id _ => rfl⟩
  | cons c rest ih =>
    simp only [JointNode.propagateMimic] at h
    cases hc : w.get c with
    | none => rw [hc] at h; simp at h
    | some cn =>
      rw [hc] at h
      simp only at h
      cases hs : cn.sub_data with
      | none =>
        rw [hs] at h
        simp only at h
        cases hself : w.get self with
        | none => rw [hself] at h; simp at h
        | some sn => rw [hself] at h; simp at h
      | some m =>
        rw [hs] at h
        simp only at h
        by_cases hcs : c = self
        · rw [if_pos hcs] at h; simp at h
        · rw [if_neg hcs] at h
          cases hset : cn.data.set_position (m.mimic_position x) with
          | error e2 => rw [hset] at h; simp at h
          | ok j =>
            rw [hset] at h
            obtain ⟨hacc, rfl⟩ := Joint.accepts_of_ok hset
            rw [← hs] at h
            have h2 : JointNode.propagateMimic (w.set c (mimicWrite cn x m))
                self rest x = Outcome.ok w' := h
            obtain ⟨hW, hF⟩ := ih h2
            exact step_lift hc hs hcs hW hF

theorem propagateMimic_error_split {cs : List Nat} {w w' : World} {self : Nat}
    {x : ℚ} {e : JointError}
    (h : JointNode.propagateMimic w self cs x = Outcome.error e w') :
    ∃ done bad rest2, cs = done ++ bad :: rest2 ∧
      WrittenAll w w' self x done ∧ FrameOutside w w' done := by
  induction cs generalizing w with
  | nil => simp only [JointNode.propagateMimic] at h; simp at h
  | cons c rest ih =>
    simp only [JointNode.propagateMimic] at h
    cases hc : w.get c with
    | none => rw [hc] at h; simp at h
    | some cn =>
      rw [hc] at h
      simp only at h
      cases hs : cn.sub_data with
      | none =>
        rw [hs] at h
        simp only at h
        cases hself : w.get self with
        | none => rw [hself] at h; simp at h
        | some sn =>
          rw [hself] at h
          simp only [Outcome.error.injEq] at h
          obtain ⟨he, rfl⟩ := h
          exact ⟨[], c, rest, rfl, fun d hd => absurd hd (List.not_mem_nil d),
            fun id _ => rfl⟩
      | some m =>
        rw [hs] at h
        simp only at h
        by_cases hcs : c = self
        · rw [if_pos hcs] at h; simp at h
        · rw [if_neg hcs] at h
          cases hset : cn.data.set_position (m.mimic_position x) with
          | error e2 =>
            rw [hset] at h
            simp only [Outcome.error.injEq] at h
            obtain ⟨he, rfl⟩ := h
            exact ⟨[], c, rest, rfl, fun d hd => absurd hd (List.not_mem_nil d),
              fun id _ => rfl⟩
          | ok j =>
            rw [hset] at h
            obtain ⟨hacc, rfl⟩ := Joint.accepts_of_ok hset
            rw [← hs] at h
            have h2 : JointNode.propagateMimic (w.set c (mimicWrite cn x m))
                self rest x = Outcome.error e w' := h
            obtain ⟨done, bad, rest2, hsplit, hW, hF⟩ := ih h2
            obtain ⟨hW', hF'⟩ := step_lift hc hs hcs hW hF
            exact ⟨c :: done, bad, rest2, by rw [hsplit]; rfl, hW', hF'⟩

theorem propagateMimic_no_panic {cs : List Nat} {w : World} {self : Nat}
    {x : ℚ} (hself : ((w.get self).isSome) = true)
    (hcs : ∀ c ∈ cs, ∃ cn, w.get c = some cn ∧ (c = self → cn.sub_data = none)) :
    JointNode.propagateMimic w self cs x ≠ Outcome.panicked := by
  induction cs generalizing w with
  | nil => simp [JointNode.propagateMimic]
  | cons c rest ih =>
    obtain ⟨cn, hc, hcself⟩ := hcs c (List.mem_cons_self c rest)
    simp only [JointNode.propagateMimic, hc]
    cases hs : cn.sub_data with
    | none =>
      simp only
      cases hself2 : w.get self with
      | none => rw [hself2] at hself; simp at hself
      | some sn => simp
    | some m =>
      simp only
      have hcs' : c ≠ self := by
        intro hh
        rw [hcself hh] at hs
        cases hs
      rw [if_neg hcs']
      cases hset : cn.data.set_position (m.mimic_position x) with
      | error e2 => simp
      | ok j =>
        obtain ⟨hacc, rfl⟩ := Joint.accepts_of_ok hset
        apply ih
        · rw [World.get_set_isSome]; exact hself
        · intro c2 hc2
          obtain ⟨cn2, hgc2, hsub2⟩ := hcs c2 (List.mem_cons_of_mem c hc2)
          by_cases hcc : c2 = c
          · subst hcc
            refine ⟨_, World.get_set_self _ hc, ?_⟩
            intro hself3
            exact absurd hself3 hcs'
          · exact ⟨cn2, by
              rw [World.get_set_ne c _ (fun hh => hcc hh.symm)]; exact hgc2,
              hsub2⟩

/-! ### Node-level set_position unfolding lemmas -/

/-- The node state after a successful write of the node's own joint
position: only `data.position` changes. -/
def posWrite (n : NodeData) (v : ℚ) : NodeData :=
  { n with data := { n.data with position := some v } }

theorem mimicWrite_eq_posWrite (cn : NodeData) (x : ℚ) (mi : Mimic) :
    mimicWrite cn x mi = posWrite cn (mi.mimic_position x) := rfl

theorem set_position_skip {w : World} {self : Nat} {n : NodeData} {q : Nat}
    (hn : w.get self = some n) (hmp : n.sub_parent = some q) (p : ℚ) :
    JointNode.set_position w self p = Outcome.ok w := by
  unfold JointNode.set_position
  rw [hn]
  simp [hmp]

theorem set_position_own_error {w : World} {self : Nat} {p : ℚ} {n : NodeData}
    {e : JointError} (hn : w.get self = some n) (hdrv : n.sub_parent = none)
    (herr : n.data.set_position p = Except.error e) :
    JointNode.set_position w self p = Outcome.error e w := by
  unfold JointNode.set_position
  rw [hn]
  simp only [hdrv, Option.isSome_none, Bool.false_eq_true, if_false]
  rw [herr]

theorem set_position_unfold {w : World} {self : Nat} {p : ℚ} {n : NodeData}
    (hn : w.get self = some n) (hdrv : n.sub_parent = none)
    (hacc : n.data.accepts p = true) :
    JointNode.set_position w self p =
      JointNode.propagateMimic (w.set self (posWrite n p)) self
        n.sub_children p := by
  unfold JointNode.set_position
  rw [hn]
  simp only [hdrv, Option.isSome_none, Bool.false_eq_true, if_false]
  rw [Joint.set_position_eq_ok hacc, ← hdrv]
  rfl

theorem Joint.accepts_eq_of_ne_fixed {j : Joint}
    (hnf : j.joint_type ≠ JointType.Fixed) (p : ℚ) :
    j.accepts p = (match j.limits with
      | some r => r.is_valid p
      | none => true) := by
  unfold Joint.accepts
  cases htp : j.joint_type with
  | Fixed => exact absurd htp hnf
  | Rotational ax => simp
  | Linear ax => simp

/-! ### Shape preservation: propagation only writes positions -/

/-- The position-independent part of a node: name, type, limits and the
mimic wiring. -/
def shapeOf (n : NodeData) : String × JointType × Option Range ×
    Option Nat × List Nat × Option Mimic :=
  (n.data.name, n.data.joint_type, n.data.limits, n.sub_parent,
    n.sub_children, n.sub_data)

/-- `w2` agrees with `w` on every node's shape. -/
def SameShape (w w2 : World) : Prop :=
  ∀ id, (w2.get id).map shapeOf = (w.get id).map shapeOf

theorem Joint.accepts_congr {j k : Joint} (v : ℚ)
    (ht : j.joint_type = k.joint_type) (hl : j.limits = k.limits) :
    j.accepts v = k.accepts v := by
  unfold Joint.accepts
  rw [ht, hl]

theorem sameShape_set_posWrite {w : World} {id : Nat} {n : NodeData} {v : ℚ}
    (hn : w.get id = some n) : SameShape w (w.set id (posWrite n v)) := by
  intro i
  by_cases hi : id = i
  · subst hi
    rw [World.get_set_self (posWrite n v) hn, hn]
    rfl
  · rw [World.get_set_ne id (posWrite n v) hi]

theorem propagateMimic_append_ok {self : Nat} {x : ℚ} {done : List Nat}
    {w : World}
    (hdone : ∀ c ∈ done, c ≠ self ∧ ∃ cn mi, w.get c = some cn ∧
      cn.sub_data = some mi ∧ cn.data.accepts (mi.mimic_position x) = true)
    (cs2 : List Nat) :
    ∃ w2, JointNode.propagateMimic w self (done ++ cs2) x =
        JointNode.propagateMimic w2 self cs2 x ∧ SameShape w w2 := by
  induction done generalizing w with
  | nil => exact ⟨w, rfl, fun id => rfl⟩
  | cons c ds ih =>
    obtain ⟨hne, cn, mi, hc, hs, hacc⟩ := hdone c (List.mem_cons_self c ds)
    have hstep : JointNode.propagateMimic w self ((c :: ds) ++ cs2) x =
        JointNode.propagateMimic (w.set c (mimicWrite cn x mi)) self
          (ds ++ cs2) x := by
      simp only [List.cons_append, JointNode.propagateMimic, hc]
      rw [hs]
      simp only
      rw [if_neg hne, Joint.set_position_eq_ok hacc, ← hs]
      rfl
    have hdone1 : ∀ c2 ∈ ds, c2 ≠ self ∧ ∃ cn2 mi2,
        (w.set c (mimicWrite cn x mi)).get c2 = some cn2 ∧
        cn2.sub_data = some mi2 ∧
        cn2.data.accepts (mi2.mimic_position x) = true := by
      intro c2 hc2
      obtain ⟨hne2, cn2, mi2, hg2, hs2, hacc2⟩ :=
        hdone c2 (List.mem_cons_of_mem c hc2)
      by_cases hcc : c2 = c
      · subst hcc
        rw [hc] at hg2
        obtain rfl : cn = cn2 := by injection hg2
        refine ⟨hne2, mimicWrite cn x mi, mi2,
          World.get_set_self (mimicWrite cn x mi) hc, hs2, ?_⟩
        rw [Joint.accepts_congr (mi2.mimic_position x) rfl rfl] at hacc2
        exact hacc2
      · exact ⟨hne2, cn2, mi2, by
          rw [World.get_set_ne c _ (fun hh => hcc hh.symm)]; exact hg2,
          hs2, hacc2⟩
    obtain ⟨w2, heq, hsh⟩ := ih hdone1
    refine ⟨w2, hstep.trans heq, ?_⟩
    intro id
    rw [hsh id]
    by_cases hi : c = id
    · subst hi
      rw [World.get_set_self (mimicWrite cn x mi) hc, hc]
      rfl
    · rw [World.get_set_ne c (mimicWrite cn x mi) hi]

/-! ### Concrete joints, nodes and worlds for witnesses and counterexamples -/

/-- A movable joint along the z axis, as built in the doc examples of
`joint_node.rs`. -/
def linearJoint (nm : String) (pos : Option ℚ) (lims : Option Range) : Joint :=
  { name := nm, joint_type := JointType.Linear (0, 0, 1), position := pos,
    limits := lims, offset := Isometry3.identity, world_transform_cache := none }

def fixedJoint (nm : String) (lims : Option Range) : Joint :=
  { name := nm, joint_type := JointType.Fixed, position := none,
    limits := lims, offset := Isometry3.identity, world_transform_cache := none }

/-- A node with no structural wiring, only mimic wiring. -/
def plainNode (j : Joint) (sp : Option Nat) (sc : List Nat)
    (sd : Option Mimic) : NodeData :=
  { data := j, parent := none, children := [], sub_parent := sp,
    sub_children := sc, sub_data := sd }

/-! ### Claim C1 -/

/-- C1: for every node with a mimic parent set, `JointNode::set_position(p)`
returns success without touching any state (the arena returned is the input
arena, so in particular the node's stored joint position is unchanged), for
every argument `p` — the skip happens before any validation. -/
theorem c1_mimicking_node_skip (w : World) (self q : Nat) (p : ℚ)
    (n : NodeData) (hn : w.get self = some n)
    (hmp : n.sub_parent = some q) :
    JointNode.set_position w self p = Outcome.ok w :=
  set_position_skip hn hmp p

def c1Node : NodeData :=
  plainNode (fixedJoint "j1" (some ⟨0, 2⟩)) (some 0) [] (some ⟨1, 0⟩)

def c1World : World :=
  ⟨[plainNode (linearJoint "j0" (some 0) none) none [1] none, c1Node]⟩

/-- C1 witness: a concrete mimicking node (here even a `Fixed` joint with
limits, and an out-of-range argument) on which the call reports success and
leaves the arena untouched. -/
theorem c1_witness :
    c1World.get 1 = some c1Node ∧ c1Node.sub_parent = some 0 ∧
    JointNode.set_position c1World 1 99 = Outcome.ok c1World :=
  ⟨rfl, rfl, c1_mimicking_node_skip c1World 1 0 99 c1Node rfl rfl⟩

/-! ### Claim C4 -/

/-- C4: for every joint whose type is `Fixed` and which has no mimic parent
set, `set_position(p)` fails with `NotMovable` for every argument `p`, and
the arena is unchanged. -/
theorem c4_fixed_always_not_movable (w : World) (self : Nat) (p : ℚ)
    (n : NodeData) (hn : w.get self = some n) (hdrv : n.sub_parent = none)
    (hfix : n.data.joint_type = JointType.Fixed) :
    JointNode.set_position w self p =
      Outcome.error (JointError.NotMovable n.data.name) w :=
  set_position_own_error hn hdrv (Joint.set_position_fixed hfix)

def c4Node : NodeData := plainNode (fixedJoint "f0" none) none [] none

def c4World : World := ⟨[c4Node]⟩

/-- C4 witness: a concrete fixed joint; the call fails with `NotMovable`. -/
theorem c4_witness :
    c4World.get 0 = some c4Node ∧ c4Node.sub_parent = none ∧
    c4Node.data.joint_type = JointType.Fixed ∧
    JointNode.set_position c4World 0 0 =
      Outcome.error (JointError.NotMovable "f0") c4World :=
  ⟨rfl, rfl, rfl, c4_fixed_always_not_movable c4World 0 0 c4Node rfl rfl rfl⟩

/-! ### Claim C5 -/

/-- C5: when `set_position(p)` fails because `p` lies outside the joint's
own configured limits, the joint's stored position is unchanged — the
failing call returns before any write (whatever error it reports). -/
theorem c5_failed_set_atomic (w w' : World) (self : Nat) (p : ℚ)
    (n : NodeData) (r : Range) (e : JointError)
    (hn : w.get self = some n) (hl : n.data.limits = some r)
    (hv : r.is_valid p = false)
    (herr : JointNode.set_position w self p = Outcome.error e w') :
    JointNode.position w' self = JointNode.position w self := by
  cases hsp : n.sub_parent with
  | some q =>
    rw [set_position_skip hn hsp p] at herr
    simp at herr
  | none =>
    by_cases hfix : n.data.joint_type = JointType.Fixed
    · rw [set_position_own_error hn hsp (Joint.set_position_fixed hfix)] at herr
      simp only [Outcome.error.injEq] at herr
      rw [herr.2]
    · rw [set_position_own_error hn hsp
        (Joint.set_position_invalid hfix hl hv)] at herr
      simp only [Outcome.error.injEq] at herr
      rw [herr.2]

def c5Node : NodeData :=
  plainNode (linearJoint "j0" (some 1) (some ⟨0, 2⟩)) none [] none

def c5World : World := ⟨[c5Node]⟩

/-- C5 witness: limits `[0,2]`, call with `-1` fails with `OutOfLimits` and
the stored position is unchanged. -/
theorem c5_witness :
    c5Node.data.limits = some ⟨0, 2⟩ ∧
    Range.is_valid ⟨0, 2⟩ (-1) = false ∧
    JointNode.set_position c5World 0 (-1) =
      Outcome.error (JointError.OutOfLimits "j0" (-1)) c5World ∧
    JointNode.position c5World 0 = JointNode.position c5World 0 :=
  ⟨rfl, by decide, by decide,
    c5_failed_set_atomic c5World c5World 0 (-1) c5Node ⟨0, 2⟩
      (JointError.OutOfLimits "j0" (-1)) rfl rfl (by decide) (by decide)⟩

/-! ### Claim C2 -/

/-- C2 (amended): for a mimicking node `C` with mimic parent `P` and record
`Mimic(m, o)`, provided `P` is itself a driver (has no mimic parent — the
amendment), whenever `P.set_position(x)` succeeds, afterwards
`C.position() = x*m + o` and `P.position() = x`. -/
theorem c2_mimic_propagation_from_driver (w w' : World) (P C : Nat)
    (x mlt off : ℚ) (pn cn : NodeData)
    (hP : w.get P = some pn) (hdrv : pn.sub_parent = none)
    (hC : w.get C = some cn) (hCp : cn.sub_parent = some P)
    (hmem : C ∈ pn.sub_children)
    (hmi : cn.sub_data = some ⟨mlt, off⟩)
    (h : JointNode.set_position w P x = Outcome.ok w') :
    JointNode.position w' C = some (x * mlt + off) ∧
    JointNode.position w' P = some x := by
  unfold JointNode.set_position at h
  rw [hP] at h
  simp only [hdrv, Option.isSome_none, Bool.false_eq_true, if_false] at h
  cases hset : pn.data.set_position x with
  | error e => rw [hset] at h; simp at h
  | ok j =>
    rw [hset] at h
    obtain ⟨hacc, rfl⟩ := Joint.accepts_of_ok hset
    obtain ⟨hW, hF⟩ := propagateMimic_ok_spec h
    obtain ⟨hCne, cn2, mi2, hg, hsd, hw'⟩ := hW C hmem
    rw [World.get_set_ne P _ (fun hh => hCne hh.symm), hC] at hg
    obtain rfl : cn = cn2 := by injection hg
    rw [hmi] at hsd
    obtain rfl : (⟨mlt, off⟩ : Mimic) = mi2 := by injection hsd
    constructor
    · simp [JointNode.position, hw', mimicWrite, Mimic.mimic_position]
    · have hPnot : P ∉ pn.sub_children := fun hmem2 => (hW P hmem2).1 rfl
      have hfP := hF P hPnot
      rw [World.get_set_self _ hP] at hfP
      simp [JointNode.position, hfP]

def c2BadQ : NodeData := plainNode (linearJoint "q" (some 0) none) none [1] none

def c2BadP : NodeData :=
  plainNode (linearJoint "p" (some 0) none) (some 0) [2] (some ⟨1, 0⟩)

def c2BadC : NodeData :=
  plainNode (linearJoint "c" (some 0) none) (some 1) [] (some ⟨1, 0⟩)

def c2BadWorld : World := ⟨[c2BadQ, c2BadP, c2BadC]⟩

/-- C2 counterexample: node 2 mimics node 1 with `Mimic(1, 0)`, but node 1
is itself a mimicking node, so `set_position(5)` on node 1 succeeds as a
no-op: afterwards node 2's position is still `0`, not `m*x + o = 5`.  The
claim as stated (quantified over every parent `P`) therefore fails. -/
theorem c2_counterexample :
    c2BadC.sub_parent = some 1 ∧ c2BadC.sub_data = some ⟨1, 0⟩ ∧
    c2BadP.sub_children = [2] ∧
    JointNode.set_position c2BadWorld 1 5 = Outcome.ok c2BadWorld ∧
    JointNode.position c2BadWorld 2 = some 0 ∧
    ¬ ((0 : ℚ) = 5 * 1 + 0) := by with_unfolding_all decide

def c2WitP : NodeData :=
  plainNode (linearJoint "j0" (some 0) (some ⟨0, 2⟩)) none [1] none

def c2WitC : NodeData :=
  plainNode (linearJoint "j1" (some 0) (some ⟨0, 2⟩)) (some 0) []
    (some ⟨3/2, 1/10⟩)

def c2WitWorld : World := ⟨[c2WitP, c2WitC]⟩

def c2WitP2 : NodeData :=
  plainNode (linearJoint "j0" (some 1) (some ⟨0, 2⟩)) none [1] none

def c2WitC2 : NodeData :=
  plainNode (linearJoint "j1" (some (8/5)) (some ⟨0, 2⟩)) (some 0) []
    (some ⟨3/2, 1/10⟩)

def c2WitWorld2 : World := ⟨[c2WitP2, c2WitC2]⟩

/-- C2 witness: the doc-example chain — `j1` mimics `j0` with
`Mimic(1.5, 0.1)`; `j0.set_position(1)` succeeds, `j1.position = 1.6`,
`j0.position = 1`. -/
theorem c2_witness :
    c2WitC.sub_parent = some 0 ∧ c2WitC.sub_data = some ⟨3/2, 1/10⟩ ∧
    JointNode.set_position c2WitWorld 0 1 = Outcome.ok c2WitWorld2 ∧
    JointNode.position c2WitWorld2 1 = some (1 * (3/2) + 1/10) ∧
    JointNode.position c2WitWorld2 0 = some 1 :=
  ⟨rfl, rfl, by with_unfolding_all decide,
    (c2_mimic_propagation_from_driver c2WitWorld c2WitWorld2 0 1 1 (3/2)
      (1/10) c2WitP c2WitC rfl rfl rfl rfl (by decide) rfl
      (by with_unfolding_all decide)).1,
    (c2_mimic_propagation_from_driver c2WitWorld c2WitWorld2 0 1 1 (3/2)
      (1/10) c2WitP c2WitC rfl rfl rfl rfl (by decide) rfl
      (by with_unfolding_all decide)).2⟩

/-! ### Claim C3 -/

/-- C3 (amended): for every non-mimicking, non-`Fixed` joint with no mimic
children: with limits `[lo, hi]`, `set_position(p)` succeeds iff
`lo ≤ p ≤ hi` and fails with `OutOfLimits` otherwise; with no limits it
succeeds for every `p`.  (The amendment adds "non-`Fixed`" to the first
part and "no mimic children" to both: a `Fixed` joint with limits fails
with `NotMovable` even in range, and a failing mimic child makes an
in-range or unconstrained set fail.) -/
theorem c3_limits_decide_success (w : World) (self : Nat) (p : ℚ)
    (n : NodeData) (hn : w.get self = some n) (hdrv : n.sub_parent = none)
    (hnf : n.data.joint_type ≠ JointType.Fixed)
    (hnc : n.sub_children = []) :
    (∀ r, n.data.limits = some r →
      ((JointNode.set_position w self p).isOk = true ↔ r.is_valid p = true)) ∧
    (∀ r, n.data.limits = some r → r.is_valid p = false →
      JointNode.set_position w self p =
        Outcome.error (JointError.OutOfLimits n.data.name p) w) ∧
    (n.data.limits = none →
      JointNode.set_position w self p =
        Outcome.ok (w.set self (posWrite n p))) := by
  have hsucc : n.data.accepts p = true →
      JointNode.set_position w self p = Outcome.ok (w.set self (posWrite n p)) := by
    intro hacc
    rw [set_position_unfold hn hdrv hacc, hnc]
    rfl
  refine ⟨?_, ?_, ?_⟩
  · intro r hr
    constructor
    · intro hok
      by_contra hv
      have hv2 : r.is_valid p = false := by
        cases hvb : r.is_valid p
        · rfl
        · exact absurd hvb hv
      rw [set_position_own_error hn hdrv
        (Joint.set_position_invalid hnf hr hv2)] at hok
      simp [Outcome.isOk] at hok
    · intro hv
      have hacc : n.data.accepts p = true := by
        rw [Joint.accepts_eq_of_ne_fixed hnf, hr]
        exact hv
      rw [hsucc hacc]
      rfl
  · intro r hr hv
    exact set_position_own_error hn hdrv (Joint.set_position_invalid hnf hr hv)
  · intro hl
    apply hsucc
    rw [Joint.accepts_eq_of_ne_fixed hnf, hl]

def c3FixNode : NodeData :=
  plainNode (fixedJoint "f" (some ⟨0, 2⟩)) none [] none

def c3FixWorld : World := ⟨[c3FixNode]⟩

def c3NoLimDriver : NodeData :=
  plainNode (linearJoint "d" (some 0) none) none [1] none

def c3LimChild : NodeData :=
  plainNode (linearJoint "c" (some 0) (some ⟨0, 1⟩)) (some 0) [] (some ⟨1, 0⟩)

def c3BadWorld : World := ⟨[c3NoLimDriver, c3LimChild]⟩

/-- C3 counterexample: (a) a non-mimicking `Fixed` joint with limits
`[0, 2]` rejects the in-range position `1` (with `NotMovable`), so
"succeeds iff in range" fails; (b) a non-mimicking, non-`Fixed` joint with
no limits but with a limited mimic child fails on `set_position(5)`, so
"succeeds for every p when limits absent" also fails. -/
theorem c3_counterexample :
    (c3FixNode.data.limits = some ⟨0, 2⟩ ∧ c3FixNode.sub_parent = none ∧
      Range.is_valid ⟨0, 2⟩ 1 = true ∧
      (JointNode.set_position c3FixWorld 0 1).isOk = false) ∧
    (c3NoLimDriver.data.limits = none ∧ c3NoLimDriver.sub_parent = none ∧
      c3NoLimDriver.data.joint_type ≠ JointType.Fixed ∧
      (JointNode.set_position c3BadWorld 0 5).isOk = false) := by
  with_unfolding_all decide

def c3WitNode : NodeData :=
  plainNode (linearJoint "j0" (some 0) (some ⟨0, 2⟩)) none [] none

def c3WitWorld : World := ⟨[c3WitNode]⟩

/-- C3 witness: a childless linear joint with limits `[0, 2]`: the success
iff holds at `p = 1` and the call at `p = 5` fails with `OutOfLimits`. -/
theorem c3_witness :
    c3WitNode.data.limits = some ⟨0, 2⟩ ∧
    ((JointNode.set_position c3WitWorld 0 1).isOk = true ↔
      Range.is_valid ⟨0, 2⟩ 1 = true) ∧
    JointNode.set_position c3WitWorld 0 5 =
      Outcome.error (JointError.OutOfLimits "j0" 5) c3WitWorld :=
  ⟨rfl,
    (c3_limits_decide_success c3WitWorld 0 1 c3WitNode rfl rfl (by decide)
      rfl).1 ⟨0, 2⟩ rfl,
    (c3_limits_decide_success c3WitWorld 0 5 c3WitNode rfl rfl (by decide)
      rfl).2.1 ⟨0, 2⟩ rfl (by decide)⟩

theorem set_position_ok_inv {w w' : World} {self : Nat} {p : ℚ} {n : NodeData}
    (hn : w.get self = some n) (hdrv : n.sub_parent = none)
    (h : JointNode.set_position w self p = Outcome.ok w') :
    n.data.accepts p = true ∧
    JointNode.propagateMimic (w.set self (posWrite n p)) self
      n.sub_children p = Outcome.ok w' := by
  unfold JointNode.set_position at h
  rw [hn] at h
  simp only [hdrv, Option.isSome_none, Bool.false_eq_true, if_false] at h
  cases hset : n.data.set_position p with
  | error e => rw [hset] at h; simp at h
  | ok j =>
    rw [hset] at h
    obtain ⟨hacc, rfl⟩ := Joint.accepts_of_ok hset
    rw [← hdrv] at h
    exact ⟨hacc, h⟩

/-! ### Claim C6 -/

/-- C6: mimic propagation is not all-or-nothing — when the driver's own
position update succeeds and the cascade then fails at some mimic child,
the driver's new position stays stored, every mimic child processed before
the failure point keeps its mimic-derived value, and every node at or after
the failure point (more precisely, every node not among the already
processed children) is untouched. -/
theorem c6_partial_mimic_propagation (w w' : World) (self : Nat) (p : ℚ)
    (n : NodeData) (j : Joint) (e : JointError)
    (hn : w.get self = some n) (hdrv : n.sub_parent = none)
    (hown : n.data.set_position p = Except.ok j)
    (h : JointNode.set_position w self p = Outcome.error e w') :
    JointNode.position w' self = some p ∧
    ∃ done bad rest2, n.sub_children = done ++ bad :: rest2 ∧
      (∀ c ∈ done, ∃ cn mi, w.get c = some cn ∧ cn.sub_data = some mi ∧
        JointNode.position w' c = some (mi.mimic_position p)) ∧
      (∀ id, id ∉ done → id ≠ self →
        JointNode.position w' id = JointNode.position w id) := by
  obtain ⟨hacc, rfl⟩ := Joint.accepts_of_ok hown
  rw [set_position_unfold hn hdrv hacc] at h
  obtain ⟨done, bad, rest2, hsplit, hW, hF⟩ := propagateMimic_error_split h
  have hselfnot : self ∉ done := fun hmem => (hW self hmem).1 rfl
  refine ⟨?_, done, bad, rest2, hsplit, ?_, ?_⟩
  · have hfs := hF self hselfnot
    rw [World.get_set_self (posWrite n p) hn] at hfs
    simp [JointNode.position, hfs, posWrite]
  · intro c hc
    obtain ⟨hcne, cn2, mi2, hg, hsd, hw'⟩ := hW c hc
    rw [World.get_set_ne self _ (fun hh => hcne hh.symm)] at hg
    exact ⟨cn2, mi2, hg, hsd, by simp [JointNode.position, hw', mimicWrite]⟩
  · intro id hid hidself
    have hfid := hF id hid
    rw [World.get_set_ne self _ (fun hh => hidself hh.symm)] at hfid
    simp [JointNode.position, hfid]

def c6Driver : NodeData :=
  plainNode (linearJoint "d" (some 0) none) none [1, 2] none

def c6Child1 : NodeData :=
  plainNode (linearJoint "c1" (some 0) none) (some 0) [] (some ⟨1, 0⟩)

def c6Child2 : NodeData :=
  plainNode (linearJoint "c2" (some 0) (some ⟨0, 1⟩)) (some 0) [] (some ⟨1, 0⟩)

def c6World : World := ⟨[c6Driver, c6Child1, c6Child2]⟩

def c6World2 : World :=
  ⟨[plainNode (linearJoint "d" (some 5) none) none [1, 2] none,
    plainNode (linearJoint "c1" (some 5) none) (some 0) [] (some ⟨1, 0⟩),
    c6Child2]⟩

/-- C6 witness: the driver succeeds, the first mimic child is written, the
second fails on its limits: the call reports `OutOfLimits` while the driver
and the first child keep their new values. -/
theorem c6_witness :
    c6Driver.sub_parent = none ∧
    c6Driver.data.set_position 5 = Except.ok (linearJoint "d" (some 5) none) ∧
    JointNode.set_position c6World 0 5 =
      Outcome.error (JointError.OutOfLimits "c2" 5) c6World2 ∧
    JointNode.position c6World2 0 = some 5 ∧
    JointNode.position c6World2 1 = some 5 ∧
    JointNode.position c6World2 2 = some 0 :=
  ⟨rfl, by rfl, by with_unfolding_all decide,
    (c6_partial_mimic_propagation c6World c6World2 0 5 c6Driver
      (linearJoint "d" (some 5) none) (JointError.OutOfLimits "c2" 5)
      rfl rfl (by rfl) (by with_unfolding_all decide)).1,
    by with_unfolding_all decide, by decide⟩

/-! ### Claim C7 -/

/-- C7 (amended): during `set_position` on a driver node, when propagation
reaches a mimic-children entry with no `Mimic` record — i.e. the driver's
own update is accepted and every earlier child carries a record and accepts
its derived value — the call fails with the mimic configuration error
naming both the driving joint and that dependent joint.  (The amendment
adds "when propagation reaches the entry": an earlier failure, e.g. the
driver's own limits, preempts it with a different error.) -/
theorem c7_missing_mimic_record (w : World) (self bad : Nat) (p : ℚ)
    (n bn : NodeData) (done rest2 : List Nat)
    (hn : w.get self = some n) (hdrv : n.sub_parent = none)
    (hacc : n.data.accepts p = true)
    (hsplit : n.sub_children = done ++ bad :: rest2)
    (hdone : ∀ c ∈ done, c ≠ self ∧ ∃ cn mi, w.get c = some cn ∧
      cn.sub_data = some mi ∧ cn.data.accepts (mi.mimic_position p) = true)
    (hbad : w.get bad = some bn) (hbs : bn.sub_data = none) :
    ∃ w2, JointNode.set_position w self p =
      Outcome.error (JointError.Mimic n.data.name bn.data.name) w2 := by
  rw [set_position_unfold hn hdrv hacc, hsplit]
  have hdone1 : ∀ c ∈ done, c ≠ self ∧ ∃ cn mi,
      (w.set self (posWrite n p)).get c = some cn ∧ cn.sub_data = some mi ∧
      cn.data.accepts (mi.mimic_position p) = true := by
    intro c hc
    obtain ⟨hcne, cn, mi, hg, hsd, hacc2⟩ := hdone c hc
    exact ⟨hcne, cn, mi, by
      rw [World.get_set_ne self _ (fun hh => hcne hh.symm)]; exact hg,
      hsd, hacc2⟩
  obtain ⟨w2, heq, hsh⟩ := propagateMimic_append_ok hdone1 (bad :: rest2)
  rw [heq]
  have hsh1 : SameShape w (w.set self (posWrite n p)) := sameShape_set_posWrite hn
  have hshc : ∀ id, (w2.get id).map shapeOf = (w.get id).map shapeOf :=
    fun id => (hsh id).trans (hsh1 id)
  have hb2 := hshc bad
  rw [hbad] at hb2
  obtain ⟨bn2, hbn2, hbs2⟩ := Option.map_eq_some'.mp hb2
  have hs2 := hshc self
  rw [hn] at hs2
  obtain ⟨sn2, hsn2, hss2⟩ := Option.map_eq_some'.mp hs2
  have hbsub : bn2.sub_data = none := by
    have hfield := congrArg (fun s => s.2.2.2.2.2) hbs2
    simp only [shapeOf] at hfield
    rw [hfield, hbs]
  have hbname : bn2.data.name = bn.data.name :=
    congrArg (fun s => s.1) hbs2
  have hsname : sn2.data.name = n.data.name :=
    congrArg (fun s => s.1) hss2
  refine ⟨w2, ?_⟩
  simp only [JointNode.propagateMimic, hbn2, hbsub, hsn2, hbname, hsname]

def c7BadDriver : NodeData :=
  plainNode (linearJoint "d" (some 0) (some ⟨0, 2⟩)) none [1] none

def c7BadChild : NodeData :=
  plainNode (linearJoint "c" (some 0) none) (some 0) [] none

def c7BadWorld : World := ⟨[c7BadDriver, c7BadChild]⟩

/-- C7 counterexample: the driver's mimic-children list contains an entry
with no `Mimic` record, yet `set_position(5)` fails with `OutOfLimits`
(the driver's own limits are `[0, 2]`), not with the mimic configuration
error — the claim as stated is too strong. -/
theorem c7_counterexample :
    c7BadChild.sub_data = none ∧ c7BadDriver.sub_children = [1] ∧
    c7BadDriver.sub_parent = none ∧
    JointNode.set_position c7BadWorld 0 5 =
      Outcome.error (JointError.OutOfLimits "d" 5) c7BadWorld := by decide

def c7WitDriver : NodeData :=
  plainNode (linearJoint "d" (some 0) none) none [1, 2] none

def c7WitC1 : NodeData :=
  plainNode (linearJoint "c1" (some 0) none) (some 0) [] (some ⟨1, 0⟩)

def c7WitC2 : NodeData :=
  plainNode (linearJoint "c2" (some 0) none) (some 0) [] none

def c7WitWorld : World := ⟨[c7WitDriver, c7WitC1, c7WitC2]⟩

/-- C7 witness: propagation reaches the record-less second child (the first
child accepts its derived value) and the call fails with the mimic error
naming driver `d` and child `c2`. -/
theorem c7_witness :
    c7WitDriver.sub_parent = none ∧ c7WitDriver.data.accepts 5 = true ∧
    c7WitDriver.sub_children = [1] ++ 2 :: [] ∧ c7WitC2.sub_data = none ∧
    (∃ w2, JointNode.set_position c7WitWorld 0 5 =
      Outcome.error (JointError.Mimic "d" "c2") w2) :=
  ⟨rfl, by decide, rfl, rfl,
    c7_missing_mimic_record c7WitWorld 0 2 5 c7WitDriver c7WitC2 [1] []
      rfl rfl (by decide) rfl
      (by
        intro c hc
        obtain rfl : c = 1 := List.mem_singleton.mp hc
        exact ⟨by decide, c7WitC1, ⟨1, 0⟩, rfl, rfl, by decide⟩)
      rfl rfl⟩

/-! ### Claim C9 -/

/-- C9: `set_mimic_parent(self, parent, mimic)` records the relation in
both directions — afterwards `self`'s mimic parent is `parent` and its
`Mimic` record is stored, `self` occurs in `parent`'s mimic-children list,
and every occurrence of `self` in that list resolves to a node with a
`Mimic` record, so a later `parent.set_position` can never take the
missing-record error branch for `self`. -/
theorem c9_set_mimic_parent_two_sided (w : World) (self parent : Nat)
    (m : Mimic) (sn pn : NodeData)
    (hs : w.get self = some sn) (hp : w.get parent = some pn) :
    ∃ sn' pn',
      (JointNode.set_mimic_parent w self parent m).get self = some sn' ∧
      (JointNode.set_mimic_parent w self parent m).get parent = some pn' ∧
      sn'.sub_parent = some parent ∧ sn'.sub_data = some m ∧
      self ∈ pn'.sub_children ∧
      (∀ c ∈ pn'.sub_children, c = self →
        ∃ cn', (JointNode.set_mimic_parent w self parent m).get c = some cn' ∧
          cn'.sub_data = some m) := by
  by_cases hne : self = parent
  · subst hne
    obtain rfl : sn = pn := by rw [hs] at hp; injection hp
    have h1 : JointNode.set_sub_parent w self self =
        (w.set self { sn with sub_parent := some self }).set self
          { sn with sub_parent := some self, sub_children := sn.sub_children ++ [self] } := by
      unfold JointNode.set_sub_parent
      rw [hs]
      simp only
      rw [World.get_set_self _ hs]
    have hg1 : (JointNode.set_sub_parent w self self).get self =
        some { sn with sub_parent := some self, sub_children := sn.sub_children ++ [self] } := by
      rw [h1]
      exact World.get_set_self _ (World.get_set_self _ hs)
    have h2 : JointNode.set_mimic_parent w self self m =
        (JointNode.set_sub_parent w self self).set self
          { sn with sub_parent := some self, sub_children := sn.sub_children ++ [self], sub_data := some m } := by
      unfold JointNode.set_mimic_parent
      simp only
      rw [hg1]
    have hget : (JointNode.set_mimic_parent w self self m).get self =
        some { sn with sub_parent := some self, sub_children := sn.sub_children ++ [self], sub_data := some m } := by
      rw [h2]
      exact World.get_set_self _ hg1
    refine ⟨_, _, hget, hget, rfl, rfl, ?_, ?_⟩
    · exact List.mem_append_right _ (List.mem_singleton_self self)
    · intro c _ hceq
      subst hceq
      exact ⟨_, hget, rfl⟩
  · have h1 : JointNode.set_sub_parent w self parent =
        (w.set self { sn with sub_parent := some parent }).set parent
          { pn with sub_children := pn.sub_children ++ [self] } := by
      unfold JointNode.set_sub_parent
      rw [hs]
      simp only
      rw [World.get_set_ne self _ hne, hp]
    have hg1 : (JointNode.set_sub_parent w self parent).get self =
        some { sn with sub_parent := some parent } := by
      rw [h1, World.get_set_ne parent _ (fun hh => hne hh.symm)]
      exact World.get_set_self _ hs
    have h2 : JointNode.set_mimic_parent w self parent m =
        (JointNode.set_sub_parent w self parent).set self
          { sn with sub_parent := some parent, sub_data := some m } := by
      unfold JointNode.set_mimic_parent
      simp only
      rw [hg1]
    have hgetS : (JointNode.set_mimic_parent w self parent m).get self =
        some { sn with sub_parent := some parent, sub_data := some m } := by
      rw [h2]
      exact World.get_set_self _ hg1
    have hgetP : (JointNode.set_mimic_parent w self parent m).get parent =
        some { pn with sub_children := pn.sub_children ++ [self] } := by
      rw [h2, World.get_set_ne self _ hne, h1]
      exact World.get_set_self _ (by
        rw [World.get_set_ne self _ hne]
        exact hp)
    refine ⟨_, _, hgetS, hgetP, rfl, rfl, ?_, ?_⟩
    · exact List.mem_append_right _ (List.mem_singleton_self self)
    · intro c _ hceq
      subst hceq
      exact ⟨_, hgetS, rfl⟩

def c9Parent : NodeData := plainNode (linearJoint "j0" (some 0) none) none [] none

def c9Child : NodeData := plainNode (linearJoint "j1" (some 0) none) none [] none

def c9World : World := ⟨[c9Parent, c9Child]⟩

/-- C9 witness: wiring node 1 to mimic node 0 establishes both directions
of the relation in a concrete two-node arena. -/
theorem c9_witness :
    c9World.get 1 = some c9Child ∧ c9World.get 0 = some c9Parent ∧
    (∃ sn' pn',
      (JointNode.set_mimic_parent c9World 1 0 ⟨2, 1⟩).get 1 = some sn' ∧
      (JointNode.set_mimic_parent c9World 1 0 ⟨2, 1⟩).get 0 = some pn' ∧
      sn'.sub_parent = some 0 ∧ sn'.sub_data = some ⟨2, 1⟩ ∧
      1 ∈ pn'.sub_children ∧
      (∀ c ∈ pn'.sub_children, c = 1 →
        ∃ cn', (JointNode.set_mimic_parent c9World 1 0 ⟨2, 1⟩).get c = some cn' ∧
          cn'.sub_data = some ⟨2, 1⟩)) :=
  ⟨rfl, rfl,
    c9_set_mimic_parent_two_sided c9World 1 0 ⟨2, 1⟩ c9Child c9Parent rfl rfl⟩

/-! ### Claim C10 -/

/-- C10 (amended): mimic propagation is exactly one level deep — for a
driver `P` with mimic child `C` that has a mimic child `G` of its own, a
successful `P.set_position(x)` writes `C`'s mimic-derived position but
leaves `G`'s stored position unchanged, provided `G` is not itself listed
among `P`'s mimic children and is not `P`.  (The amendment adds that
proviso: a node reachable both as `C`'s mimic child and directly as `P`'s
mimic child is written.) -/
theorem c10_one_level_only (w w' : World) (P C G : Nat) (x : ℚ)
    (pn cn : NodeData) (mi : Mimic)
    (hP : w.get P = some pn) (hdrv : pn.sub_parent = none)
    (hmem : C ∈ pn.sub_children) (hC : w.get C = some cn)
    (hmi : cn.sub_data = some mi)
    (hG : G ∈ cn.sub_children) (hGnotP : G ∉ pn.sub_children) (hGP : G ≠ P)
    (h : JointNode.set_position w P x = Outcome.ok w') :
    JointNode.position w' C = some (mi.mimic_position x) ∧
    JointNode.position w' G = JointNode.position w G := by
  obtain ⟨hacc, hrun⟩ := set_position_ok_inv hP hdrv h
  obtain ⟨hW, hF⟩ := propagateMimic_ok_spec hrun
  constructor
  · obtain ⟨hCne, cn2, mi2, hg, hsd, hw'⟩ := hW C hmem
    rw [World.get_set_ne P _ (fun hh => hCne hh.symm), hC] at hg
    obtain rfl : cn = cn2 := by injection hg
    rw [hmi] at hsd
    obtain rfl : mi = mi2 := by injection hsd
    simp [JointNode.position, hw', mimicWrite]
  · have hfG := hF G hGnotP
    rw [World.get_set_ne P _ (fun hh => hGP hh.symm)] at hfG
    simp [JointNode.position, hfG]

def c10BadP : NodeData :=
  plainNode (linearJoint "p" (some 0) none) none [1, 2] none

def c10BadC : NodeData :=
  plainNode (linearJoint "c" (some 0) none) (some 0) [2] (some ⟨1, 0⟩)

def c10BadG : NodeData :=
  plainNode (linearJoint "g" (some 0) none) (some 0) [] (some ⟨2, 0⟩)

def c10BadWorld : World := ⟨[c10BadP, c10BadC, c10BadG]⟩

def c10BadWorld2 : World :=
  ⟨[plainNode (linearJoint "p" (some 1) none) none [1, 2] none,
    plainNode (linearJoint "c" (some 1) none) (some 0) [2] (some ⟨1, 0⟩),
    plainNode (linearJoint "g" (some 2) none) (some 0) [] (some ⟨2, 0⟩)]⟩

/-- C10 counterexample: node 2 is a mimic child of node 1 (itself a mimic
child of driver 0) but also appears directly in driver 0's mimic-children
list; after a successful `set_position(1)` on the driver, node 2's stored
position changed from `0` to `2` — so the claim as stated (every mimic
child of `C` stays unchanged) fails. -/
theorem c10_counterexample :
    c10BadC.sub_children = [2] ∧ c10BadP.sub_children = [1, 2] ∧
    c10BadC.sub_parent = some 0 ∧ c10BadP.sub_parent = none ∧
    JointNode.set_position c10BadWorld 0 1 = Outcome.ok c10BadWorld2 ∧
    JointNode.position c10BadWorld 2 = some 0 ∧
    JointNode.position c10BadWorld2 2 = some 2 ∧ ¬ ((2 : ℚ) = 0) := by
  with_unfolding_all decide

def c10WitP : NodeData :=
  plainNode (linearJoint "p" (some 0) none) none [1] none

def c10WitC : NodeData :=
  plainNode (linearJoint "c" (some 0) none) (some 0) [2] (some ⟨2, 1⟩)

def c10WitG : NodeData :=
  plainNode (linearJoint "g" (some 7) none) (some 1) [] (some ⟨3, 0⟩)

def c10WitWorld : World := ⟨[c10WitP, c10WitC, c10WitG]⟩

def c10WitWorld2 : World :=
  ⟨[plainNode (linearJoint "p" (some 1) none) none [1] none,
    plainNode (linearJoint "c" (some 3) none) (some 0) [2] (some ⟨2, 1⟩),
    c10WitG]⟩

/-- C10 witness: a three-level chain `p → c → g`; `p.set_position(1)` sets
`c` to `1*2+1 = 3` while `g` keeps its stored `7`. -/
theorem c10_witness :
    c10WitP.sub_children = [1] ∧ c10WitC.sub_children = [2] ∧
    JointNode.set_position c10WitWorld 0 1 = Outcome.ok c10WitWorld2 ∧
    JointNode.position c10WitWorld2 1 = some ((⟨2, 1⟩ : Mimic).mimic_position 1) ∧
    JointNode.position c10WitWorld2 2 = JointNode.position c10WitWorld 2 :=
  ⟨rfl, rfl, by with_unfolding_all decide,
    (c10_one_level_only c10WitWorld c10WitWorld2 0 1 2 1 c10WitP c10WitC
      ⟨2, 1⟩ rfl rfl (by decide) rfl rfl (by decide) (by decide) (by decide)
      (by with_unfolding_all decide)).1,
    (c10_one_level_only c10WitWorld c10WitWorld2 0 1 2 1 c10WitP c10WitC
      ⟨2, 1⟩ rfl rfl (by decide) rfl rfl (by decide) (by decide) (by decide)
      (by with_unfolding_all decide)).2⟩

/-! ### Claim C8 -/

/-- C8 (amended): `JointNode::set_position` and the parent-transform read
terminate with `Ok` or a typed `Err` — never a crash — on every state in
which the node exists, all of its (owning) mimic-children references
resolve, its structural-parent weak reference (when present) is live, and,
if the node lists itself among its own mimic children, that entry carries
no `Mimic` record.  (The amendment carves out the two crashing states the
claim as stated includes: a dangling structural-parent reference makes
`parent_world_transform` panic on `upgrade().unwrap()`, and a driver that
lists itself with a `Mimic` record panics on a re-entrant `borrow_mut`.) -/
theorem c8_no_panic_on_wellformed (w : World) (self : Nat) (p : ℚ)
    (n : NodeData) (hn : w.get self = some n)
    (hkids : ∀ c ∈ n.sub_children, ∃ cn, w.get c = some cn)
    (hloop : self ∈ n.sub_children → n.sub_data = none)
    (hpar : ∀ pid, n.parent = some pid → ∃ pn2, w.get pid = some pn2) :
    JointNode.set_position w self p ≠ Outcome.panicked ∧
    JointNode.parent_world_transform w self ≠
      JointNode.TransformRead.panicked := by
  constructor
  · unfold JointNode.set_position
    rw [hn]
    simp only
    cases hsp : n.sub_parent with
    | some q => simp [hsp]
    | none =>
      simp only [hsp, Option.isSome_none, Bool.false_eq_true, if_false]
      cases hset : n.data.set_position p with
      | error e => simp
      | ok j =>
        simp only
        obtain ⟨hacc, rfl⟩ := Joint.accepts_of_ok hset
        apply propagateMimic_no_panic
        · rw [World.get_set_isSome, hn]
          rfl
        · intro c hc
          obtain ⟨cn, hcn⟩ := hkids c hc
          by_cases hcs : c = self
          · subst hcs
            obtain rfl : n = cn := by rw [hn] at hcn; injection hcn
            refine ⟨_, World.get_set_self _ hn, ?_⟩
            intro _
            exact hloop hc
          · exact ⟨cn, by
              rw [World.get_set_ne self _ (fun hh => hcs hh.symm)]
              exact hcn,
              fun hh => absurd hh hcs⟩
  · unfold JointNode.parent_world_transform
    rw [hn]
    simp only
    cases hpp : n.parent with
    | none => simp
    | some pid =>
      obtain ⟨pn2, hpn2⟩ := hpar pid hpp
      simp [hpn2]

def c8DanglingNode : NodeData :=
  { data := linearJoint "x" (some 0) none, parent := some 7, children := [],
    sub_parent := none, sub_children := [], sub_data := none }

def c8DanglingWorld : World := ⟨[c8DanglingNode]⟩

def c8LoopNode : NodeData :=
  plainNode (linearJoint "s" (some 0) none) none [0] (some ⟨1, 0⟩)

def c8LoopWorld : World := ⟨[c8LoopNode]⟩

/-- C8 counterexample: with a dangling structural-parent reference the
parent-transform read crashes (`upgrade().unwrap()`), and a driver that
lists itself among its own mimic children with a `Mimic` record crashes on
a re-entrant `borrow_mut` inside `set_position` — so "terminates normally
on every input state" fails as stated. -/
theorem c8_counterexample :
    c8DanglingNode.parent = some 7 ∧ c8DanglingWorld.get 7 = none ∧
    JointNode.parent_world_transform c8DanglingWorld 0 =
      JointNode.TransformRead.panicked ∧
    c8LoopNode.sub_parent = none ∧ c8LoopNode.sub_children = [0] ∧
    c8LoopNode.sub_data = some ⟨1, 0⟩ ∧
    JointNode.set_position c8LoopWorld 0 1 = Outcome.panicked := by decide

def c8WitNode : NodeData := plainNode (linearJoint "w0" (some 0) none) none [] none

def c8WitWorld : World := ⟨[c8WitNode]⟩

/-- C8 witness: on a well-formed single-node arena both operations are
panic-free. -/
theorem c8_witness :
    c8WitWorld.get 0 = some c8WitNode ∧
    JointNode.set_position c8WitWorld 0 3 ≠ Outcome.panicked ∧
    JointNode.parent_world_transform c8WitWorld 0 ≠
      JointNode.TransformRead.panicked :=
  ⟨rfl,
    (c8_no_panic_on_wellformed c8WitWorld 0 3 c8WitNode rfl
      (fun c hc => absurd hc (List.not_mem_nil c))
      (fun hc => absurd hc (List.not_mem_nil 0))
      (fun pid hh => nomatch hh)).1,
    (c8_no_panic_on_wellformed c8WitWorld 0 3 c8WitNode rfl
      (fun c hc => absurd hc (List.not_mem_nil c))
      (fun hc => absurd hc (List.not_mem_nil 0))
      (fun pid hh => nomatch hh)).2⟩

end K
